import Mathlib

/-!
Verification of the LadderUp match/room core (src/server_comps/match_room.py and
src/server_comps/matchmaking.py) against its natural-language specification.

The Python code is shallowly embedded: the Redis hash that stores one match room
becomes an explicit `Option RoomRec` (every operation under study is performed on a
room whose hash exists; Redis writes that store a value equal to the stored one are
modelled as the identity on the record), the in-process registries
(`active_timers`, `active_connections`, `player_answers`, `audio_buffers`) become
fields of explicit state structures, and external collaborators (Firestore question
lookup, the Whisper transcriber, the grader middleware) become function parameters.
Timestamps are abstract `Nat` values passed in for `datetime.now()`.
-/

namespace LadderUp

/-- Room lifecycle states, from `class RoomStatus(Enum)` in match_room.py. -/
inductive RoomStatus where
  | waiting
  | active
  | completed
  | abandoned
deriving DecidableEq, Repr

/-- A question as returned by `get_random_question_from_firestore` (an external
collaborator: the Firestore lookup itself is out of scope, only its result shape
matters to `set_player_ready`). -/
structure Question where
  id : String
  question : String
  answerCriteria : String
deriving DecidableEq, Repr

/-- The persisted match-room record, from `@dataclass class MatchRoom` in
match_room.py (the Redis hash fields of one room). -/
structure RoomRec where
  match_id : String
  player1_uid : String
  player2_uid : String
  created_at : Nat
  status : RoomStatus
  question_id : Option String := none
  question_text : Option String := none
  player1_ready : Bool := false
  player2_ready : Bool := false
  started_at : Option Nat := none
  completed_at : Option Nat := none
  time_remaining : Option Nat := none
deriving DecidableEq, Repr

/-- Per-match server state touched by the room-lifecycle operations:
the stored room hash (`room:{match_id}` in Redis, `none` when expired/absent),
membership of the match in the `active_rooms` set, and the timer bookkeeping.
`registeredTimer` models `active_timers[match_id]` (the task id the dict maps to,
if any); `liveTimers` counts timer tasks created for this match and not yet
finished or cancelled — the dict itself cannot count them, because
`active_timers[match_id] = timer_task` overwrites the previous entry without
cancelling the task it pointed to.  `nextTimerId` is a fresh-name supply for
task identities. -/
structure SysState where
  room : Option RoomRec
  activeRoomsMember : Bool := false
  liveTimers : Nat := 0
  registeredTimer : Option Nat := none
  nextTimerId : Nat := 0
deriving DecidableEq, Repr

/-- Embeds `create_match_room(match_id, player1_uid, player2_uid)`: writes a fresh
WAITING record and adds the match to the `active_rooms` set. -/
def create_match_room (mid p1 p2 : String) (now : Nat) : SysState :=
  { room := some
      { match_id := mid
        player1_uid := p1
        player2_uid := p2
        created_at := now
        status := RoomStatus.waiting }
    activeRoomsMember := true }

/-- Embeds `cancel_match_timer(match_id)`: if a timer task is registered in
`active_timers`, cancel it and await it; the awaited task ends (its
`finally` block removes the registry entry), so the registered entry is gone
and one live task fewer remains.  The cancelled task's own grading/status
side effects are modelled separately by `timerRun` below. -/
def cancel_match_timer (st : SysState) : SysState :=
  match st.registeredTimer with
  | none => st
  | some _ => { st with registeredTimer := none, liveTimers := st.liveTimers - 1 }

/-- Embeds `update_room_status(match_id, status)`: unconditionally writes the status
field; for ACTIVE also writes `started_at`; for COMPLETED/ABANDONED writes
`completed_at`, removes the match from `active_rooms`, and cancels any
registered timer. -/
def update_room_status (st : SysState) (s : RoomStatus) (now : Nat) : SysState :=
  let st1 : SysState := { st with room := st.room.map (fun r => { r with status := s }) }
  match s with
  | RoomStatus.active =>
      { st1 with room := st1.room.map (fun r => { r with started_at := some now }) }
  | RoomStatus.completed =>
      cancel_match_timer
        { st1 with room := st1.room.map (fun r => { r with completed_at := some now })
                   activeRoomsMember := false }
  | RoomStatus.abandoned =>
      cancel_match_timer
        { st1 with room := st1.room.map (fun r => { r with completed_at := some now })
                   activeRoomsMember := false }
  | RoomStatus.waiting => st1

/-- Result of `set_player_ready`: the `{"both_ready": ..., "question": ...}` dict. -/
structure ReadyResult where
  both_ready : Bool
  question : Option Question
deriving DecidableEq, Repr

/-- Embeds `set_player_ready(match_id, player_uid)`: marks the calling player's ready
flag (no write when the uid matches neither player), and when both flags are
true selects a question `q` (the external Firestore lookup), stores it, moves
the room to ACTIVE via `update_room_status`, and registers a freshly created
timer task in `active_timers` — note the source performs no check that the room
is still WAITING or that a timer already exists. -/
def set_player_ready (st : SysState) (q : Question) (now : Nat) (uid : String) :
    SysState × ReadyResult :=
  match st.room with
  | none => (st, { both_ready := false, question := none })
  | some r0 =>
    let r1 :=
      if uid = r0.player1_uid then { r0 with player1_ready := true }
      else if uid = r0.player2_uid then { r0 with player2_ready := true }
      else r0
    if r1.player1_ready && r1.player2_ready then
      let r2 := { r1 with question_id := some q.id, question_text := some q.question }
      let st2 := update_room_status { st with room := some r2 } RoomStatus.active now
      let st3 := { st2 with
        liveTimers := st2.liveTimers + 1
        registeredTimer := some st2.nextTimerId
        nextTimerId := st2.nextTimerId + 1 }
      (st3, { both_ready := true, question := some q })
    else
      ({ st with room := some r1 }, { both_ready := false, question := none })

/-- Embeds `verify_player_access(match_id, player_uid)`: room must exist and the uid
must be one of the two players (`player_uid in [player1_uid, player2_uid]`). -/
def verify_player_access (room : Option RoomRec) (uid : String) : Bool :=
  match room with
  | none => false
  | some r => uid = r.player1_uid || uid = r.player2_uid

/-- Modelled from the spec sentence for `VerifyAccess` (refinement target, not
source code): "returns true iff `uid` equals either player on the room", and
false when the room does not exist, for all room statuses. -/
def verifyAccessSpec (room : Option RoomRec) (uid : String) : Bool :=
  match room with
  | none => false
  | some r => decide (uid = r.player1_uid ∨ uid = r.player2_uid)

/-! ## Matchmaking queue (src/server_comps/matchmaking.py) -/

/-- Matchmaking state: the shared FIFO list `match_queue` (head = oldest entry,
`rpush` appends at the tail, `lpop` removes at the head) and the sequence of
match-found events published on `match_channel`. -/
structure MMState where
  queue : List String
  published : List (String × String)
deriving DecidableEq, Repr

/-- Redis `lpop`: pop the head of a Redis list, `none` when empty. -/
def lpop (q : List String) : Option String × List String :=
  match q with
  | [] => (none, [])
  | x :: xs => (some x, xs)

/-- Python truthiness of an `lpop` result: `if not p1` is taken both for a
missing reply (`None`) and for an empty-string uid. -/
def pyFalsy (s : Option String) : Bool :=
  match s with
  | none => true
  | some str => str = ""

/-- Embeds `enqueue_player(user_id)`: `rpush` onto the tail of `match_queue`. -/
def enqueue_player (st : MMState) (uid : String) : MMState :=
  { st with queue := st.queue ++ [uid] }

/-- One cycle of `try_match_players()`.  `roomOk` is the outcome of the external
`create_match_room` store write (`false` = the write raises).  The source wraps
the whole body in a catch-all `try/except`, so no branch ever surfaces an error
to the caller: every branch of the embedding returns `Except.ok`.
Faithful details: the queue length is checked first; two `lpop`s happen before
any truthiness check; a falsy first pop returns with both pops discarded; a falsy
second pop `lpush`es the first uid back at the head; a failing room creation
`rpush`es both uids back at the tail and returns without publishing; a successful
creation publishes the `{players, match_id}` event. -/
def try_match_players (st : MMState) (roomOk : Bool) : Except String MMState :=
  if st.queue.length < 2 then Except.ok st
  else
    let pop1 := lpop st.queue
    let pop2 := lpop pop1.2
    if pyFalsy pop1.1 then Except.ok { st with queue := pop2.2 }
    else if pyFalsy pop2.1 then
      Except.ok { st with queue := pop1.1.getD "" :: pop2.2 }
    else
      let p1 := pop1.1.getD ""
      let p2 := pop2.1.getD ""
      if roomOk then
        Except.ok { queue := pop2.2, published := st.published ++ [(p1, p2)] }
      else
        Except.ok { st with queue := pop2.2 ++ [p1, p2] }

/-! ## Constants (match_room.py module constants) -/

/-- Constant `ROOM_TTL_SECONDS = 600` in the source (its own unit test asserts 3600). -/
def ROOM_TTL_SECONDS : Nat := 600

/-- Constant `MATCH_DURATION_SECONDS = 20` in the source.  The source's same-line comment
reads "7 minutes (420 seconds) for the match" and the repository's unit test
(`unittests/test_match_room.py`) asserts the value 420. -/
def MATCH_DURATION_SECONDS : Nat := 20

/-- Constant `AUDIO_RATE = 16000` — 16 kHz sample rate, 2 bytes per sample. -/
def AUDIO_RATE : Nat := 16000

/-- Constant `CHUNK_DURATION = 4` — seconds of buffered audio that trigger transcription. -/
def CHUNK_DURATION : Nat := 4

/-! ## Python string primitives

The transcript pipeline manipulates Python `str` values with `strip`, `split`
and `" ".join`.  Strings are embedded as `List Char`.  `pySplit` models the
no-argument `str.split()`: split on runs of whitespace, dropping empty pieces
(implemented by structural recursion; it computes the same function). -/

/-- Python text strings as lists of characters. -/
abbrev PyStr := List Char

/-- ASCII whitespace recognised by Python's `str.strip`/`str.split` (the inputs
here are transcriber output, ASCII-spaced text). -/
def pyIsSpace (c : Char) : Bool :=
  c = ' ' || c = '\t' || c = '\n' || c = '\r' || c = '\x0b' || c = '\x0c'

/-- Left half of Python `str.strip()`. -/
def stripLeft (s : PyStr) : PyStr := s.dropWhile pyIsSpace

/-- Right half of Python `str.strip()`. -/
def stripRight (s : PyStr) : PyStr := (s.reverse.dropWhile pyIsSpace).reverse

/-- Python `str.strip()`: drop whitespace from both ends. -/
def pyStrip (s : PyStr) : PyStr := stripRight (stripLeft s)

/-- Python `str.split()` with no argument: maximal runs of non-whitespace,
empty pieces dropped. -/
def pySplit : PyStr → List PyStr
  | [] => []
  | c :: rest =>
    if pyIsSpace c then pySplit rest
    else
      match rest with
      | [] => [[c]]
      | d :: _ =>
        if pyIsSpace d then [c] :: pySplit rest
        else
          match pySplit rest with
          | [] => [[c]]
          | w :: ws => (c :: w) :: ws

/-- Python `" ".join(pieces)`. -/
def pyJoinSpace : List PyStr → PyStr
  | [] => []
  | [s] => s
  | s :: d :: rest => s ++ ' ' :: pyJoinSpace (d :: rest)

/-! ## Audio ingestion / transcript accumulation (match_room.py) -/

/-- Per-`(match_id, player_uid)` transcript-pipeline state: the raw audio chunk
buffer `audio_buffers[key]`, the accumulated transcript `player_answers[key]`
(written by `accumulate_transcription`), and the texts of the `transcription`
events broadcast so far. -/
structure AudioState where
  buffer : List (List Nat)
  answers : List PyStr
  transcriptionBroadcasts : List PyStr
deriving DecidableEq, Repr

/-- Empty pipeline state (no buffer entry, no accumulated answer). -/
def initAudioState : AudioState :=
  { buffer := [], answers := [], transcriptionBroadcasts := [] }

/-- Computes `sum(len(chunk) // 2 for chunk in audio_buffers[buffer_key])`. -/
def total_samples (buf : List (List Nat)) : Nat :=
  (buf.map (fun c => c.length / 2)).sum

/-- Constant `overlap_bytes = int(AUDIO_RATE * 0.5) * 2` — bytes retained for context
overlap after a transcription pass. -/
def overlap_bytes : Nat := (AUDIO_RATE / 2) * 2

/-- Python `data[-n:]` on a list/bytes value (whole value when `n ≥ len`). -/
def pyTakeLast (n : Nat) (l : List Nat) : List Nat := l.drop (l.length - n)

/-- The per-chunk transcription text:
`transcription_text += text + " "` for each Whisper segment whose stripped
text is non-empty. -/
def buildTranscription (raws : List PyStr) : PyStr :=
  raws.foldl (fun acc s => if pyStrip s = [] then acc else acc ++ pyStrip s ++ [' ']) []

/-- Embeds `process_audio_chunk_with_accumulation(match_id, player_uid, audio_chunk)`
for one `(match, player)` stream.  `T` is the external Whisper transcriber
(`whisper.transcribe`), taking the joined raw bytes (the deterministic
int16 → float32 conversion performed before the call is absorbed into `T`) and
returning the segment texts.  The buffered duration test
`duration >= CHUNK_DURATION` with `duration = total_samples / AUDIO_RATE`
(exact in float for these magnitudes) is embedded as
`CHUNK_DURATION * AUDIO_RATE ≤ total_samples`.  On a transcription pass the
buffer is reset to the trailing `overlap_bytes` of the joined audio.  The second
component is instrumentation at the transcriber boundary: the raw segment texts
`T` returned for this chunk (empty when no transcription ran); `T` is total
here, so the source's `except` branch that clears the buffer is not taken. -/
def process_audio_chunk_with_accumulation (T : List Nat → List PyStr)
    (st : AudioState) (chunk : List Nat) : AudioState × List PyStr :=
  let buf := st.buffer ++ [chunk]
  if CHUNK_DURATION * AUDIO_RATE ≤ total_samples buf then
    let audio_data := buf.flatten
    let raws := T audio_data
    let entry := pyStrip (buildTranscription raws)
    let st1 :=
      if entry = [] then st
      else
        { st with answers := st.answers ++ [entry]
                  transcriptionBroadcasts := st.transcriptionBroadcasts ++ [entry] }
    ({ st1 with buffer := [pyTakeLast overlap_bytes audio_data] }, raws)
  else
    ({ st with buffer := buf }, [])

/-- Sequential feed of audio chunks for one `(match, player)` stream, collecting
the raw transcriber outputs encountered (instrumentation, second component). -/
def runAudio (T : List Nat → List PyStr) (st : AudioState) :
    List (List Nat) → AudioState × List PyStr
  | [] => (st, [])
  | c :: cs =>
    let r := process_audio_chunk_with_accumulation T st c
    let rest := runAudio T r.1 cs
    (rest.1, r.2 ++ rest.2)

/-- The non-empty stripped segment texts among raw transcriber outputs — the
"recognized segments" of the claim; `process_audio_chunk_with_accumulation`
appends exactly these (space-joined) to the transcript. -/
def recognizedSegs (raws : List PyStr) : List PyStr :=
  (raws.map pyStrip).filter (fun s => !(s == []))

/-- The answer string built by `save_match_answers`:
`complete_answer = " ".join(answer_segments)` then
`complete_answer = " ".join(complete_answer.split())`. -/
def final_answer (segs : List PyStr) : PyStr :=
  pyJoinSpace (pySplit (pyJoinSpace segs))

/-- A well-behaved transcriber output segment: after the pipeline's own
`strip`, the text is in `split`-normal form (single spaces between words).
Leading/trailing whitespace on the raw segment is allowed — typical Whisper
output carries a leading space and the pipeline strips it.  What the predicate
excludes is a run of two or more whitespace characters inside a segment, which
`save_match_answers`' final re-normalization would collapse. -/
def goodSeg (s : PyStr) : Bool :=
  pyJoinSpace (pySplit (pyStrip s)) == pyStrip s

/-- A transcriber all of whose output segments are well-behaved
(`goodSeg`); used as the hypothesis of the amended transcript round-trip
claim. -/
def goodTranscriber (T : List Nat → List PyStr) : Prop :=
  ∀ b s, s ∈ T b → goodSeg s = true

/-- A transcriber that recognizes a segment with a doubled internal space —
legal transcriber output on which the round-trip equality fails. -/
def doubleSpaceTranscriber : List Nat → List PyStr :=
  fun _ => [['a', ' ', ' ', 'b']]

/-! ## Match timer (start_match_timer_with_grading, match_room.py)

One execution of the timer task is embedded as the trace of effects it performs.
External cancellation (`cancel_match_timer`, e.g. from `force_complete`) is a
`CancelledError` delivered at an await point of the task.  The task's await
points fall into three classes, modelled by `CancelPt`:

* during one of the countdown loop's `asyncio.sleep`s (`loopSleep k`);
* during the expiry path's post-loop awaits while `grading_completed` is still
  `False` — inside the `match_ending` broadcast or inside
  `save_match_answers` itself (its `hgetall`, the grading middleware call, the
  `match_graded` broadcast's socket sends).  `CancelledError` is a
  `BaseException`, so the `except Exception` handlers inside
  `save_match_answers`/`broadcast_to_room` do not catch it, and the flag
  assignment `grading_completed = True` sits after the `await`, so it has not
  run.  `duringExpiry j` delivers the error after the first `j` events of the
  expiry path's broadcast-plus-grading sequence have been emitted;
* after expiry grading completed (`afterGrading`): delivery during the
  completed-status update, where the handler finds the flag `True`.

In the first two classes the `except asyncio.CancelledError` handler sees
`grading_completed == False` and runs the full `match_ending`-broadcast +
`save_match_answers` sequence (for `duringExpiry` this is a second
invocation, replaying grading against the still-uncleaned `player_answers`
table, since the interrupted call never reached its cleanup loop); in the third
it skips grading.  Every cancellation path ends with the status update and
re-raises.  `cancelAt = none` is the pure expiry path.  Post-grading
control-flow oddities (the completed-status update cancelling the timer's own
task) never re-enter grading because the guard flag is already set; the trace
records the single status update of each exit path. -/

/-- Events of the countdown loop body (one per iteration, in program order). -/
inductive TickEv where
  | setTimeRemaining (t : Nat)
  | timeUpdate (t : Nat)
  | timeWarning (t : Nat)
  | sleepFor (w : Nat)
deriving DecidableEq, Repr

/-- Events of `save_match_answers`: a `Grader.Grade` invocation (via
`answer_to_db_middleware`) for a player with a recorded answer, the
"no answer recorded" result for one without, and the final `match_graded`
broadcast. -/
inductive GradeEv where
  | gradeCall (uid : String) (answer : PyStr)
  | noAnswer (uid : String)
  | matchGradedBroadcast
deriving DecidableEq, Repr

/-- Full trace alphabet of one timer-task execution. -/
inductive TEvent where
  | tick (e : TickEv)
  | matchEndingBroadcast
  | saveCall
  | gev (e : GradeEv)
  | statusCompleted
  | reraiseCancelled
deriving DecidableEq, Repr

/-- The loop's wait step: 1 s in the last 10 s, 5 s from 30 s down, otherwise
10 s, never longer than the remaining time. -/
def wait_time (t : Nat) : Nat :=
  min (if t ≤ 10 then 1 else if t ≤ 30 then 5 else 10) t

/-- The `time_warning` broadcasts at the fixed 60/30/10-second thresholds. -/
def warnEvents (t : Nat) : List TickEv :=
  if t = 60 then [TickEv.timeWarning 60]
  else if t = 30 then [TickEv.timeWarning 30]
  else if t = 10 then [TickEv.timeWarning 10]
  else []

/-- The countdown loop `while time_remaining > 0`: persist `time_remaining`,
broadcast `time_update`, threshold warnings, then sleep `wait_time` and deduct
it.  Returns the loop's events and whether cancellation was delivered during one
of its sleeps (`cancelAt = some idx`-th sleep).  The `fuel` argument makes the
recursion structural; `fuel = t` at entry suffices because every iteration
decreases `t` by `wait_time t ≥ 1`. -/
def timerLoop : Nat → Nat → Nat → Option Nat → List TickEv × Bool
  | 0, _, _, _ => ([], false)
  | fuel + 1, t, idx, cancelAt =>
    if t = 0 then ([], false)
    else
      let evs := TickEv.setTimeRemaining t :: TickEv.timeUpdate t :: warnEvents t
      let w := wait_time t
      if cancelAt = some idx then (evs ++ [TickEv.sleepFor w], true)
      else
        let rest := timerLoop fuel (t - w) (idx + 1) cancelAt
        (evs ++ TickEv.sleepFor w :: rest.1, rest.2)

/-- Event trace of `save_match_answers(match_id)`: nothing when the room hash is
missing or its `question_id` is falsy (absent or empty); otherwise one grading
event per player in `[player1_uid, player2_uid]` order — `Grade` on the
compiled `final_answer` when the player has accumulated transcript segments,
"no answer recorded" otherwise — followed by the single `match_graded`
broadcast.  `answers` is the `player_answers` table restricted to this match. -/
def save_match_answers_body (r : RoomRec) (answers : String → List PyStr) :
    List TEvent :=
  if pyFalsy r.question_id then []
  else
    (if answers r.player1_uid = [] then [TEvent.gev (GradeEv.noAnswer r.player1_uid)]
     else [TEvent.gev
        (GradeEv.gradeCall r.player1_uid (final_answer (answers r.player1_uid)))]) ++
    (if answers r.player2_uid = [] then [TEvent.gev (GradeEv.noAnswer r.player2_uid)]
     else [TEvent.gev
        (GradeEv.gradeCall r.player2_uid (final_answer (answers r.player2_uid)))]) ++
    [TEvent.gev GradeEv.matchGradedBroadcast]

/-- Embeds `save_match_answers` proper: nothing at all when the room hash is missing
("No room data found" early return). -/
def save_match_answers (room : Option RoomRec) (answers : String → List PyStr) :
    List TEvent :=
  match room with
  | none => []
  | some r => save_match_answers_body r answers

/-- Await-point classes at which a `CancelledError` can be delivered to the
timer task (see the section comment above). -/
inductive CancelPt where
  | loopSleep (k : Nat)
  | duringExpiry (j : Nat)
  | afterGrading
deriving DecidableEq, Repr

/-- The expiry path's broadcast-plus-grading sequence (also replayed by the
`except asyncio.CancelledError` handler when `grading_completed` is still
false): `match_ending` broadcast, then the `save_match_answers` invocation and
its events. -/
def expiry_grading_events (room : Option RoomRec) (answers : String → List PyStr) :
    List TEvent :=
  TEvent.matchEndingBroadcast :: TEvent.saveCall :: save_match_answers room answers

/-- One execution of the timer task `start_match_timer_with_grading(match_id)`
as its event trace, for a given cancellation schedule.
`none`: countdown to zero, broadcast + grading (flag still false), completed
status update.  `loopSleep k`: delivery at the loop's k-th sleep; the handler
broadcasts, grades (flag false), updates the status and re-raises (a `k` the
loop never reaches is an unrealisable schedule and falls back to the expiry
path).  `duringExpiry j`: the loop completes and the expiry sequence is
interrupted after its first `j` events, with the guard flag still false; the
handler then replays the full broadcast + grading before the status update and
re-raise — `save_match_answers`, and with it per-player grading, can run
twice.  `afterGrading`: delivery during the completed-status update; the
handler sees the flag true and skips grading. -/
def start_match_timer_with_grading (cancelAt : Option CancelPt) (room : Option RoomRec)
    (answers : String → List PyStr) : List TEvent :=
  match cancelAt with
  | none =>
    (timerLoop MATCH_DURATION_SECONDS MATCH_DURATION_SECONDS 0 none).1.map TEvent.tick ++
      expiry_grading_events room answers ++ [TEvent.statusCompleted]
  | some (CancelPt.loopSleep k) =>
    if (timerLoop MATCH_DURATION_SECONDS MATCH_DURATION_SECONDS 0 (some k)).2 then
      (timerLoop MATCH_DURATION_SECONDS MATCH_DURATION_SECONDS 0 (some k)).1.map
          TEvent.tick ++
        expiry_grading_events room answers ++
        [TEvent.statusCompleted, TEvent.reraiseCancelled]
    else
      (timerLoop MATCH_DURATION_SECONDS MATCH_DURATION_SECONDS 0 (some k)).1.map
          TEvent.tick ++
        expiry_grading_events room answers ++ [TEvent.statusCompleted]
  | some (CancelPt.duringExpiry j) =>
    (timerLoop MATCH_DURATION_SECONDS MATCH_DURATION_SECONDS 0 none).1.map TEvent.tick ++
      (expiry_grading_events room answers).take j ++
      expiry_grading_events room answers ++
      [TEvent.statusCompleted, TEvent.reraiseCancelled]
  | some CancelPt.afterGrading =>
    (timerLoop MATCH_DURATION_SECONDS MATCH_DURATION_SECONDS 0 none).1.map TEvent.tick ++
      expiry_grading_events room answers ++
      [TEvent.statusCompleted, TEvent.reraiseCancelled]

/-- Number of `save_match_answers` invocations in a trace. -/
def countSaves (evs : List TEvent) : Nat :=
  evs.countP fun e =>
    match e with
    | TEvent.saveCall => true
    | _ => false

/-- Number of `Grader.Grade` invocations for a given player in a trace. -/
def countGrades (uid : String) (evs : List TEvent) : Nat :=
  evs.countP fun e =>
    match e with
    | TEvent.gev (GradeEv.gradeCall u _) => u == uid
    | _ => false

/-- Number of `match_graded` broadcasts in a trace. -/
def countGradedBroadcasts (evs : List TEvent) : Nat :=
  evs.countP fun e =>
    match e with
    | TEvent.gev GradeEv.matchGradedBroadcast => true
    | _ => false

/-! ## WebSocket room handler (room_websocket, match_room.py)

The handler's behaviour from `websocket.accept()` up to entering the
receive loop, as state transformer plus event trace.  `token` is the session
cookie, `resolve` the external `get_session` lookup. -/

/-- The Python `.value` string of a room status. -/
def RoomStatus.value : RoomStatus → String
  | RoomStatus.waiting => "waiting"
  | RoomStatus.active => "active"
  | RoomStatus.completed => "completed"
  | RoomStatus.abandoned => "abandoned"

/-- The `question` payload of the `connected` message: either the full question
dict from the `set_player_ready` result (both-ready case) or the
`{"id", "text"}` pair read back from the room hash. -/
inductive ConnQuestion where
  | fromResult (q : Question)
  | fromRoom (id : Option String) (text : Option String)
deriving DecidableEq, Repr

/-- The `connected` message sent to the joining player. -/
structure ConnMsg where
  status : String
  is_ready : Bool
  question : Option ConnQuestion
  time_remaining : Option Nat
deriving DecidableEq, Repr

/-- Observable actions of the handler before its receive loop.
`clientMessage` marks the processing of a client frame; it is emitted only
inside the receive loop, never in this prefix. -/
inductive WsEvent where
  | sendError (msg : String)
  | closeConn (code : Nat)
  | registerConn (uid : String)
  | callSetPlayerReady (uid : String)
  | sendPlayerJoined (uid : String)
  | sendConnected (m : ConnMsg)
  | sendMatchStart (uid : String)
  | clientMessage
  | enterReceiveLoop
deriving DecidableEq, Repr

/-- The `connected` message the handler assembles: `is_ready` is hard-coded
`True` in every branch of the source ("Player is auto-readied"); `both` is the
source's `result["both_ready"] and result.get("question")`; the room snapshot is
the one re-read after the auto-ready call. -/
def connected_message (both : Bool) (resQuestion : Option Question)
    (room : Option RoomRec) : ConnMsg :=
  if both then
    { status := "active"
      is_ready := true
      question := resQuestion.map ConnQuestion.fromResult
      time_remaining := some MATCH_DURATION_SECONDS }
  else
    match room with
    | some r =>
      if r.question_text.isSome then
        { status := r.status.value
          is_ready := true
          question := some (ConnQuestion.fromRoom r.question_id r.question_text)
          time_remaining := r.time_remaining }
      else
        { status := r.status.value, is_ready := true
          question := none, time_remaining := none }
    | none =>
      { status := "waiting", is_ready := true
        question := none, time_remaining := none }

/-- Embeds `room_websocket(match_id)` from the access check up to the receive
loop, for the session-resolved uid: verify room access (close 1008 on
failure); then register the connection, auto-invoke `set_player_ready` for the
connecting player, broadcast `player_joined`, re-read the room, send the
`connected` message with `is_ready = True`, and — when the auto-ready
completed both flags — broadcast the match-start `player_ready` to the other
player.  `q` and `now` feed the embedded `set_player_ready`. -/
def room_websocket_session (uid : String) (st : SysState) (q : Question)
    (now : Nat) : SysState × List WsEvent :=
  if verify_player_access st.room uid then
    ((set_player_ready st q now uid).1,
      [WsEvent.registerConn uid, WsEvent.callSetPlayerReady uid,
       WsEvent.sendPlayerJoined uid,
       WsEvent.sendConnected
         (connected_message
           ((set_player_ready st q now uid).2.both_ready &&
             (set_player_ready st q now uid).2.question.isSome)
           (set_player_ready st q now uid).2.question
           (set_player_ready st q now uid).1.room)] ++
      (if (set_player_ready st q now uid).2.both_ready &&
          (set_player_ready st q now uid).2.question.isSome then
        [WsEvent.sendMatchStart uid]
      else []) ++
      [WsEvent.enterReceiveLoop])
  else
    (st, [WsEvent.sendError "Access denied", WsEvent.closeConn 1008])

/-- Authentication wrapper of the handler: missing cookie and failed session
resolution each close with 1008 before any room interaction. -/
def room_websocket (token : Option String) (resolve : String → Option String)
    (st : SysState) (q : Question) (now : Nat) : SysState × List WsEvent :=
  match token with
  | none => (st, [WsEvent.sendError "Not authenticated", WsEvent.closeConn 1008])
  | some tk =>
    match resolve tk with
    | none => (st, [WsEvent.sendError "Invalid session", WsEvent.closeConn 1008])
    | some uid => room_websocket_session uid st q now

/-! ## Concrete demonstration states -/

/-- A question distinct from the one stored on the demo rooms. -/
def qNew : Question := { id := "q9", question := "new?", answerCriteria := "c" }

/-- An ACTIVE room whose two players are both marked ready, with its timer task
(id 0) live and registered — the state every room is in right after a normal
match start. -/
def stActiveBothReady : SysState :=
  { room := some
      { match_id := "m1", player1_uid := "p1", player2_uid := "p2"
        created_at := 0, status := RoomStatus.active
        question_id := some "q0", question_text := some "orig?"
        player1_ready := true, player2_ready := true
        started_at := some 3, time_remaining := some 15 }
    activeRoomsMember := true, liveTimers := 1, registeredTimer := some 0
    nextTimerId := 1 }

/-- A COMPLETED room whose ready flags are still both true (they are never
cleared), after its timer ended. -/
def stCompletedBothReady : SysState :=
  { room := some
      { match_id := "m2", player1_uid := "p1", player2_uid := "p2"
        created_at := 0, status := RoomStatus.completed
        question_id := some "q0", question_text := some "orig?"
        player1_ready := true, player2_ready := true
        started_at := some 3, completed_at := some 8 }
    activeRoomsMember := false, liveTimers := 0, registeredTimer := none
    nextTimerId := 1 }

/-- A freshly created WAITING room (both ready flags false). -/
def roomWaitingDemo : RoomRec :=
  { match_id := "m0", player1_uid := "p1", player2_uid := "p2"
    created_at := 0, status := RoomStatus.waiting }

/-- State holding just the fresh WAITING room. -/
def stWaitingDemo : SysState := { room := some roomWaitingDemo }

/-- A WAITING room in which player 1 is already ready. -/
def roomP1Ready : RoomRec :=
  { match_id := "mw", player1_uid := "p1", player2_uid := "p2"
    created_at := 0, status := RoomStatus.waiting, player1_ready := true }

/-- State holding `roomP1Ready`. -/
def stP1Ready : SysState := { room := some roomP1Ready }

/-- An ACTIVE room used to run the timer-trace model concretely. -/
def roomTimerDemo : RoomRec :=
  { match_id := "mt", player1_uid := "p1", player2_uid := "p2"
    created_at := 0, status := RoomStatus.active
    question_id := some "q7", question_text := some "Tell us"
    player1_ready := true, player2_ready := true, started_at := some 1 }

/-- Accumulated transcripts for the timer demo: player 1 spoke, player 2 did
not. -/
def answersTimerDemo : String → List PyStr :=
  fun u => if u = "p1" then [['h', 'i']] else []

/-! ## Theorems -/

/-! ### Helper lemmas on the Python string primitives -/

theorem pySplit_nil : pySplit [] = [] := rfl

theorem pySplit_cons_space (c : Char) (r : PyStr) (h : pyIsSpace c = true) :
    pySplit (c :: r) = pySplit r := by
  rw [pySplit.eq_def]
  simp [h]

theorem pySplit_singleton (c : Char) (h : pyIsSpace c = false) :
    pySplit [c] = [[c]] := by
  rw [pySplit.eq_def]
  simp [h]

theorem pySplit_cons_cons_space (c d : Char) (r : PyStr)
    (hc : pyIsSpace c = false) (hd : pyIsSpace d = true) :
    pySplit (c :: d :: r) = [c] :: pySplit (d :: r) := by
  rw [pySplit.eq_def]
  simp [hc, hd]

theorem pySplit_cons_cons_word (c d : Char) (r : PyStr) (w : PyStr) (ws : List PyStr)
    (hc : pyIsSpace c = false) (hd : pyIsSpace d = false)
    (hw : pySplit (d :: r) = w :: ws) :
    pySplit (c :: d :: r) = (c :: w) :: ws := by
  rw [pySplit.eq_def]
  simp [hc, hd, hw]

theorem pySplit_cons_nonspace :
    ∀ (r : PyStr) (c : Char), pyIsSpace c = false →
      ∃ w ws, pySplit (c :: r) = w :: ws := by
  intro r
  induction r with
  | nil => exact fun c h => ⟨[c], [], pySplit_singleton c h⟩
  | cons d r' ih =>
    intro c h
    by_cases hd : pyIsSpace d
    · exact ⟨[c], _, pySplit_cons_cons_space c d r' h hd⟩
    · obtain ⟨w, ws, hw⟩ := ih d (by simpa using hd)
      exact ⟨c :: w, ws, pySplit_cons_cons_word c d r' w ws h (by simpa using hd) hw⟩

theorem pySplit_append_space (b : PyStr) :
    ∀ a : PyStr, pySplit (a ++ ' ' :: b) = pySplit a ++ pySplit b := by
  intro a
  induction a with
  | nil =>
    rw [List.nil_append, pySplit_nil, List.nil_append,
      pySplit_cons_space ' ' b (by decide)]
  | cons c rest ih =>
    by_cases hc : pyIsSpace c
    · rw [List.cons_append, pySplit_cons_space c _ hc, ih, pySplit_cons_space c rest hc]
    · cases rest with
      | nil =>
        show pySplit (c :: ' ' :: b) = pySplit [c] ++ pySplit b
        rw [pySplit_cons_cons_space c ' ' b (by simpa using hc) (by decide),
          pySplit_cons_space ' ' b (by decide),
          pySplit_singleton c (by simpa using hc), List.singleton_append]
      | cons d r' =>
        by_cases hd : pyIsSpace d
        · rw [List.cons_append, List.cons_append,
            pySplit_cons_cons_space c d _ (by simpa using hc) hd,
            pySplit_cons_cons_space c d r' (by simpa using hc) hd]
          rw [List.cons_append] at ih
          rw [ih, List.cons_append]
        · obtain ⟨w, ws, hw⟩ := pySplit_cons_nonspace r' d (by simpa using hd)
          have hw2 : pySplit (d :: r' ++ ' ' :: b) = w :: (ws ++ pySplit b) := by
            rw [List.cons_append] at ih ⊢
            rw [ih, hw, List.cons_append]
          show pySplit (c :: d :: (r' ++ ' ' :: b)) = pySplit (c :: d :: r') ++ pySplit b
          rw [pySplit_cons_cons_word c d (r' ++ ' ' :: b) w (ws ++ pySplit b) (by simpa using hc)
              (by simpa using hd) (by simpa using hw2),
            pySplit_cons_cons_word c d r' w ws (by simpa using hc) (by simpa using hd) hw,
            List.cons_append]

theorem pyJoinSpace_cons_ne (s : PyStr) (L : List PyStr) (h : L ≠ []) :
    pyJoinSpace (s :: L) = s ++ ' ' :: pyJoinSpace L := by
  cases L with
  | nil => exact absurd rfl h
  | cons d rest => rfl

theorem split_joinSpace : ∀ L : List PyStr,
    pySplit (pyJoinSpace L) = (L.map pySplit).flatten := by
  intro L
  induction L with
  | nil => simp [pyJoinSpace, pySplit_nil]
  | cons s rest ih =>
    cases rest with
    | nil => simp [pyJoinSpace]
    | cons d rest' =>
      rw [pyJoinSpace_cons_ne s (d :: rest') (by simp), pySplit_append_space, ih]
      simp

theorem joinSpace_append (A B : List PyStr) (hA : A ≠ []) (hB : B ≠ []) :
    pyJoinSpace (A ++ B) = pyJoinSpace A ++ ' ' :: pyJoinSpace B := by
  induction A with
  | nil => exact absurd rfl hA
  | cons x A' ih =>
    cases A' with
    | nil =>
      rw [List.singleton_append, pyJoinSpace_cons_ne x B hB]
      rfl
    | cons y A'' =>
      rw [List.cons_append, pyJoinSpace_cons_ne x (y :: A'' ++ B) (by simp),
        ih (by simp), pyJoinSpace_cons_ne x (y :: A'') (by simp), List.append_assoc,
        List.cons_append]

theorem joinSpace_ne_nil (L : List PyStr) (h : L ≠ []) (he : ∀ s ∈ L, s ≠ []) :
    pyJoinSpace L ≠ [] := by
  cases L with
  | nil => exact absurd rfl h
  | cons s rest =>
    cases rest with
    | nil => exact he s (by simp)
    | cons d rest' =>
      rw [pyJoinSpace_cons_ne s (d :: rest') (by simp)]
      intro hcontra
      rcases List.append_eq_nil.mp hcontra with ⟨_, h2⟩
      cases h2

theorem joinSpace_flatten_splits : ∀ segs : List PyStr,
    (∀ s ∈ segs, pySplit s ≠ [] ∧ pyJoinSpace (pySplit s) = s) →
    pyJoinSpace ((segs.map pySplit).flatten) = pyJoinSpace segs := by
  intro segs
  induction segs with
  | nil => intro _; rfl
  | cons s rest ih =>
    intro h
    obtain ⟨hs1, hs3⟩ := h s (by simp)
    cases rest with
    | nil => simpa using hs3
    | cons t rest' =>
      obtain ⟨ht1, _⟩ := h t (by simp)
      have hflat : ((t :: rest').map pySplit).flatten ≠ [] := by
        simp only [List.map_cons, List.flatten_cons]
        intro hc
        exact ht1 (List.append_eq_nil.mp hc).1
      rw [List.map_cons, List.flatten_cons, joinSpace_append _ _ hs1 hflat,
        ih (fun x hx => h x (by simp [hx])), hs3,
        pyJoinSpace_cons_ne s (t :: rest') (by simp)]

theorem dropWhile_append_of_ne {p : Char → Bool} {l1 : PyStr} (l2 : PyStr)
    (h : l1.dropWhile p ≠ []) :
    (l1 ++ l2).dropWhile p = l1.dropWhile p ++ l2 := by
  rw [List.dropWhile_append]
  simp [List.isEmpty_iff, h]

theorem stripLeft_cons_head (c : Char) (cs : PyStr) (h : stripLeft (c :: cs) = c :: cs) :
    pyIsSpace c = false := by
  by_contra hc
  rw [Bool.not_eq_false] at hc
  unfold stripLeft at h
  rw [List.dropWhile_cons, if_pos hc] at h
  have := List.dropWhile_suffix (l := cs) pyIsSpace |>.length_le
  rw [h] at this
  simp at this

theorem stripLeft_append_full (s r : PyStr) (hne : s ≠ []) (h : stripLeft s = s) :
    stripLeft (s ++ r) = s ++ r := by
  cases s with
  | nil => exact absurd rfl hne
  | cons c cs =>
    have hc := stripLeft_cons_head c cs h
    unfold stripLeft
    rw [List.cons_append, List.dropWhile_cons, if_neg (by simp [hc])]

theorem stripRight_rev (s : PyStr) :
    s.reverse.dropWhile pyIsSpace = (stripRight s).reverse := by
  unfold stripRight
  rw [List.reverse_reverse]

theorem stripRight_append_sep (s J : PyStr) (hJ : stripRight J ≠ []) :
    stripRight (s ++ ' ' :: J) = s ++ ' ' :: stripRight J := by
  unfold stripRight
  rw [List.reverse_append, List.reverse_cons]
  have hrev : J.reverse.dropWhile pyIsSpace ≠ [] := by
    rw [stripRight_rev]
    simpa using hJ
  rw [List.append_assoc, dropWhile_append_of_ne _ hrev, List.reverse_append,
    stripRight_rev, List.reverse_reverse]
  simp

theorem stripRight_append_trailing_space (s : PyStr) (hs : stripRight s = s) :
    stripRight (s ++ [' ']) = s := by
  unfold stripRight
  rw [List.reverse_append]
  show ((List.reverse [' '] ++ s.reverse).dropWhile pyIsSpace).reverse = s
  have hdrop : (List.reverse [' '] ++ s.reverse).dropWhile pyIsSpace =
      s.reverse.dropWhile pyIsSpace := by
    show ((' ' :: []) ++ s.reverse).dropWhile pyIsSpace = _
    rw [List.cons_append, List.dropWhile_cons, if_pos (by decide), List.nil_append]
  rw [hdrop, stripRight_rev, hs, List.reverse_reverse]

theorem pyStrip_eq_self (s : PyStr) (h1 : stripLeft s = s) (h2 : stripRight s = s) :
    pyStrip s = s := by
  unfold pyStrip
  rw [h1, h2]

theorem strip_join_words : ∀ g : List PyStr,
    (∀ s ∈ g, s ≠ [] ∧ stripLeft s = s ∧ stripRight s = s) →
    pyStrip ((g.map (fun s => s ++ [' '])).flatten) = pyJoinSpace g := by
  intro g
  induction g with
  | nil => intro _; rfl
  | cons s g' ih =>
    intro h
    obtain ⟨hs0, hs1, hs2⟩ := h s (by simp)
    have hx : ((s :: g').map (fun s => s ++ [' '])).flatten =
        s ++ ([' '] ++ (g'.map (fun s => s ++ [' '])).flatten) := by
      simp
    cases g' with
    | nil =>
      show pyStrip _ = pyJoinSpace [s]
      rw [hx]
      unfold pyStrip
      rw [stripLeft_append_full s _ hs0 hs1]
      simp only [List.map_nil, List.flatten_nil, List.append_nil]
      exact stripRight_append_trailing_space s hs2
    | cons t g'' =>
      obtain ⟨ht0, ht1, ht2⟩ := h t (by simp)
      have hJdef : ((t :: g'').map (fun s => s ++ [' '])).flatten =
          t ++ ([' '] ++ (g''.map (fun s => s ++ [' '])).flatten) := by
        simp
      have hJL : stripLeft (((t :: g'').map (fun s => s ++ [' '])).flatten) =
          ((t :: g'').map (fun s => s ++ [' '])).flatten := by
        rw [hJdef]
        exact stripLeft_append_full t _ ht0 ht1
      have hJR : stripRight (((t :: g'').map (fun s => s ++ [' '])).flatten) =
          pyJoinSpace (t :: g'') := by
        have hmain := ih (fun x hx => h x (by simp [hx]))
        unfold pyStrip at hmain
        rwa [hJL] at hmain
      have hJne : stripRight (((t :: g'').map (fun s => s ++ [' '])).flatten) ≠ [] := by
        rw [hJR]
        exact joinSpace_ne_nil (t :: g'') (by simp) (fun x hx => (h x (by simp [hx])).1)
      rw [hx]
      unfold pyStrip
      rw [stripLeft_append_full s _ hs0 hs1]
      have hsplit : s ++ ([' '] ++ (((t :: g'')).map (fun s => s ++ [' '])).flatten) =
          s ++ ' ' :: (((t :: g'')).map (fun s => s ++ [' '])).flatten := by simp
      rw [hsplit, stripRight_append_sep s _ hJne, hJR,
        pyJoinSpace_cons_ne s (t :: g'') (by simp)]

theorem dropWhile_idem (p : Char → Bool) (l : PyStr) :
    (l.dropWhile p).dropWhile p = l.dropWhile p := by
  induction l with
  | nil => rfl
  | cons a l ih =>
    rw [List.dropWhile_cons]
    by_cases h : p a = true
    · rw [if_pos h]
      exact ih
    · rw [if_neg h, List.dropWhile_cons, if_neg h]

theorem stripLeft_idem (s : PyStr) : stripLeft (stripLeft s) = stripLeft s :=
  dropWhile_idem pyIsSpace s

theorem stripRight_head (c : Char) (cs : PyStr) :
    stripRight (c :: cs) = [] ∨ ∃ t, stripRight (c :: cs) = c :: t := by
  obtain ⟨pre, hpre⟩ := List.dropWhile_suffix (l := (c :: cs).reverse) pyIsSpace
  have h2 : ((c :: cs).reverse.dropWhile pyIsSpace).reverse ++ pre.reverse = c :: cs := by
    have h3 := congrArg List.reverse hpre
    rw [List.reverse_append, List.reverse_reverse] at h3
    exact h3
  rcases hsr : ((c :: cs).reverse.dropWhile pyIsSpace).reverse with _ | ⟨d, t⟩
  · left
    unfold stripRight
    exact hsr
  · right
    rw [hsr, List.cons_append] at h2
    injection h2 with hd _
    refine ⟨t, ?_⟩
    unfold stripRight
    rw [hsr, hd]

theorem stripLeft_stripRight (x : PyStr) (h : stripLeft x = x) :
    stripLeft (stripRight x) = stripRight x := by
  cases x with
  | nil => rfl
  | cons c cs =>
    have hc := stripLeft_cons_head c cs h
    rcases stripRight_head c cs with h0 | ⟨t, ht⟩
    · rw [h0]
      rfl
    · rw [ht]
      unfold stripLeft
      rw [List.dropWhile_cons, if_neg (by simp [hc])]

theorem stripRight_idem (s : PyStr) : stripRight (stripRight s) = stripRight s := by
  unfold stripRight
  rw [List.reverse_reverse, dropWhile_idem]

theorem pyStrip_noEdge (s : PyStr) :
    stripLeft (pyStrip s) = pyStrip s ∧ stripRight (pyStrip s) = pyStrip s := by
  unfold pyStrip
  exact ⟨stripLeft_stripRight (stripLeft s) (stripLeft_idem s),
    stripRight_idem (stripLeft s)⟩

theorem buildTranscription_general : ∀ (raws : List PyStr) (acc : PyStr),
    raws.foldl (fun acc s => if pyStrip s = [] then acc else acc ++ pyStrip s ++ [' ']) acc =
      acc ++ ((recognizedSegs raws).map (fun s => s ++ [' '])).flatten := by
  intro raws
  induction raws with
  | nil => intro acc; simp [recognizedSegs]
  | cons s rest ih =>
    intro acc
    rw [List.foldl_cons]
    by_cases hnil : pyStrip s = []
    · rw [if_pos hnil, ih]
      have hrec : recognizedSegs (s :: rest) = recognizedSegs rest := by
        unfold recognizedSegs
        rw [List.map_cons, List.filter_cons, hnil]
        simp
      rw [hrec]
    · rw [if_neg hnil, ih]
      have hrec : recognizedSegs (s :: rest) = pyStrip s :: recognizedSegs rest := by
        unfold recognizedSegs
        rw [List.map_cons, List.filter_cons, if_pos (by simpa using hnil)]
      rw [hrec]
      simp

theorem recognizedSegs_append (a b : List PyStr) :
    recognizedSegs (a ++ b) = recognizedSegs a ++ recognizedSegs b := by
  simp [recognizedSegs]

theorem entry_of_chunk (raws : List PyStr) :
    pyStrip (buildTranscription raws) = pyJoinSpace (recognizedSegs raws) ∧
    (∀ t ∈ recognizedSegs raws, t ≠ [] ∧ stripLeft t = t ∧ stripRight t = t) := by
  have hmem : ∀ t ∈ recognizedSegs raws, t ≠ [] ∧ stripLeft t = t ∧ stripRight t = t := by
    intro t ht
    obtain ⟨hm, hp⟩ := List.mem_filter.mp ht
    obtain ⟨s, _, rfl⟩ := List.mem_map.mp hm
    exact ⟨by simpa using hp, (pyStrip_noEdge s).1, (pyStrip_noEdge s).2⟩
  refine ⟨?_, hmem⟩
  unfold buildTranscription
  rw [buildTranscription_general raws [], List.nil_append]
  exact strip_join_words (recognizedSegs raws) hmem

theorem recognized_props (T : List Nat → List PyStr) (hT : goodTranscriber T)
    (b : List Nat) :
    ∀ t ∈ recognizedSegs (T b), t ≠ [] ∧ stripLeft t = t ∧ stripRight t = t ∧
      pyJoinSpace (pySplit t) = t := by
  intro t ht
  obtain ⟨hm, hp⟩ := List.mem_filter.mp ht
  obtain ⟨s, hs, rfl⟩ := List.mem_map.mp hm
  have hg := hT b s hs
  unfold goodSeg at hg
  exact ⟨by simpa using hp, (pyStrip_noEdge s).1, (pyStrip_noEdge s).2, by simpa using hg⟩

theorem process_step_below (T : List Nat → List PyStr) (st : AudioState) (c : List Nat)
    (h : ¬ CHUNK_DURATION * AUDIO_RATE ≤ total_samples (st.buffer ++ [c])) :
    process_audio_chunk_with_accumulation T st c =
      ({ st with buffer := st.buffer ++ [c] }, []) := by
  unfold process_audio_chunk_with_accumulation
  rw [if_neg h]

theorem process_step_at_nil (T : List Nat → List PyStr) (st : AudioState) (c : List Nat)
    (h : CHUNK_DURATION * AUDIO_RATE ≤ total_samples (st.buffer ++ [c]))
    (hnil : pyStrip (buildTranscription (T (st.buffer ++ [c]).flatten)) = []) :
    process_audio_chunk_with_accumulation T st c =
      ({ st with buffer := [pyTakeLast overlap_bytes (st.buffer ++ [c]).flatten] },
        T (st.buffer ++ [c]).flatten) := by
  unfold process_audio_chunk_with_accumulation
  rw [if_pos h]
  have hnil2 : pyStrip (buildTranscription (T (st.buffer.flatten ++ c))) = [] := by
    simpa using hnil
  simp [hnil, hnil2]

theorem process_step_at_cons (T : List Nat → List PyStr) (st : AudioState) (c : List Nat)
    (h : CHUNK_DURATION * AUDIO_RATE ≤ total_samples (st.buffer ++ [c]))
    (hne : pyStrip (buildTranscription (T (st.buffer ++ [c]).flatten)) ≠ []) :
    process_audio_chunk_with_accumulation T st c =
      ({ buffer := [pyTakeLast overlap_bytes (st.buffer ++ [c]).flatten]
         answers :=
           st.answers ++ [pyStrip (buildTranscription (T (st.buffer ++ [c]).flatten))]
         transcriptionBroadcasts :=
           st.transcriptionBroadcasts ++
             [pyStrip (buildTranscription (T (st.buffer ++ [c]).flatten))] },
        T (st.buffer ++ [c]).flatten) := by
  unfold process_audio_chunk_with_accumulation
  rw [if_pos h]
  simp only [if_neg hne]

theorem runAudio_rel (T : List Nat → List PyStr) (hT : goodTranscriber T) :
    ∀ (chunks : List (List Nat)) (st : AudioState),
      ∃ groups : List (List PyStr),
        (runAudio T st chunks).1.answers = st.answers ++ groups.map pyJoinSpace ∧
        recognizedSegs (runAudio T st chunks).2 = groups.flatten ∧
        ∀ g ∈ groups, g ≠ [] ∧ ∀ s ∈ g,
          s ≠ [] ∧ stripLeft s = s ∧ stripRight s = s ∧ pyJoinSpace (pySplit s) = s := by
  intro chunks
  induction chunks with
  | nil =>
    intro st
    exact ⟨[], by simp [runAudio], by simp [runAudio, recognizedSegs], by simp⟩
  | cons c cs ih =>
    intro st
    by_cases hth : CHUNK_DURATION * AUDIO_RATE ≤ total_samples (st.buffer ++ [c])
    · obtain ⟨hentry, hprops⟩ := entry_of_chunk (T (st.buffer ++ [c]).flatten)
      by_cases hrecnil : recognizedSegs (T (st.buffer ++ [c]).flatten) = []
      · have hnil : pyStrip (buildTranscription (T (st.buffer ++ [c]).flatten)) = [] := by
          rw [hentry, hrecnil]
          rfl
        obtain ⟨groups, hg1, hg2, hg3⟩ :=
          ih { st with buffer := [pyTakeLast overlap_bytes (st.buffer ++ [c]).flatten] }
        refine ⟨groups, ?_, ?_, hg3⟩
        · show (runAudio T st (c :: cs)).1.answers = _
          rw [runAudio, process_step_at_nil T st c hth hnil]
          exact hg1
        · show recognizedSegs (runAudio T st (c :: cs)).2 = _
          rw [runAudio, process_step_at_nil T st c hth hnil]
          simp only [recognizedSegs_append, hrecnil, List.nil_append]
          exact hg2
      · have hne : pyStrip (buildTranscription (T (st.buffer ++ [c]).flatten)) ≠ [] := by
          rw [hentry]
          exact joinSpace_ne_nil _ hrecnil (fun s hs => (hprops s hs).1)
        obtain ⟨groups, hg1, hg2, hg3⟩ :=
          ih { buffer := [pyTakeLast overlap_bytes (st.buffer ++ [c]).flatten]
               answers :=
                 st.answers ++ [pyStrip (buildTranscription (T (st.buffer ++ [c]).flatten))]
               transcriptionBroadcasts :=
                 st.transcriptionBroadcasts ++
                   [pyStrip (buildTranscription (T (st.buffer ++ [c]).flatten))] }
        refine ⟨recognizedSegs (T (st.buffer ++ [c]).flatten) :: groups, ?_, ?_, ?_⟩
        · show (runAudio T st (c :: cs)).1.answers = _
          rw [runAudio, process_step_at_cons T st c hth hne]
          rw [hg1, hentry]
          simp only [List.map_cons, List.append_assoc, List.singleton_append]
        · show recognizedSegs (runAudio T st (c :: cs)).2 = _
          rw [runAudio, process_step_at_cons T st c hth hne]
          simp only [recognizedSegs_append, hg2, List.flatten_cons]
        · intro g hg
          rcases List.mem_cons.mp hg with hg | hg
          · subst hg
            exact ⟨hrecnil, recognized_props T hT _⟩
          · exact hg3 g hg
    · obtain ⟨groups, hg1, hg2, hg3⟩ := ih { st with buffer := st.buffer ++ [c] }
      refine ⟨groups, ?_, ?_, hg3⟩
      · show (runAudio T st (c :: cs)).1.answers = _
        rw [runAudio, process_step_below T st c hth]
        exact hg1
      · show recognizedSegs (runAudio T st (c :: cs)).2 = _
        rw [runAudio, process_step_below T st c hth]
        simpa [recognizedSegs] using hg2

/-- C4: with UIDs enqueued in order A, B, C, D (non-empty, pairwise-distinct
uids as the claim's scenario assumes) and the queue holding at least 2 entries at
each poll, two successful `try_match_players` cycles pop the two oldest entries
in FIFO order: the first pairs (A, B), the second pairs (C, D), and a pairing
(A, C) never occurs among the published events. -/
theorem c4_fifo_pairing (A B C D : String) (hA : A ≠ "") (hB : B ≠ "")
    (hC : C ≠ "") (hD : D ≠ "") (hBC : B ≠ C) (hAC : A ≠ C) :
    ∃ st1 st2,
      try_match_players { queue := [A, B, C, D], published := [] } true = Except.ok st1 ∧
      st1.queue = [C, D] ∧ st1.published = [(A, B)] ∧
      try_match_players st1 true = Except.ok st2 ∧
      st2.queue = [] ∧ st2.published = [(A, B), (C, D)] ∧
      (A, C) ∉ st2.published := by
  refine ⟨{ queue := [C, D], published := [(A, B)] },
          { queue := [], published := [(A, B), (C, D)] }, ?_, rfl, rfl, ?_, rfl, rfl, ?_⟩
  · simp [try_match_players, lpop, pyFalsy, hA, hB]
  · simp [try_match_players, lpop, pyFalsy, hC, hD]
  · intro hmem
    rcases List.mem_cons.mp hmem with h | hmem2
    · exact hBC (congrArg Prod.snd h).symm
    · rcases List.mem_cons.mp hmem2 with h | h3
      · exact hAC (congrArg Prod.fst h)
      · simp at h3

/-- Witness for C4 at concrete uids. -/
theorem c4_fifo_pairing_witness :
    ∃ st1 st2,
      try_match_players { queue := ["a", "b", "c", "d"], published := [] } true =
        Except.ok st1 ∧
      st1.queue = ["c", "d"] ∧ st1.published = [("a", "b")] ∧
      try_match_players st1 true = Except.ok st2 ∧
      st2.queue = [] ∧ st2.published = [("a", "b"), ("c", "d")] ∧
      ("a", "c") ∉ st2.published :=
  c4_fifo_pairing "a" "b" "c" "d" (by decide) (by decide) (by decide) (by decide)
    (by decide) (by decide)

/-- C5: when both pops succeed but `create_match_room` raises, both popped UIDs
are pushed back to the tail of the queue, no match-found event is published, and
the cycle returns normally (no error surfaced to the caller). -/
theorem c5_requeue_on_failure (p1 p2 : String) (rest : List String)
    (pub : List (String × String)) (h1 : p1 ≠ "") (h2 : p2 ≠ "") :
    try_match_players { queue := p1 :: p2 :: rest, published := pub } false =
      Except.ok { queue := rest ++ [p1, p2], published := pub } := by
  simp [try_match_players, lpop, pyFalsy, h1, h2]

/-- Witness for C5 at a concrete queue. -/
theorem c5_requeue_on_failure_witness :
    try_match_players { queue := ["a", "b", "c"], published := [("x", "y")] } false =
      Except.ok { queue := ["c", "a", "b"], published := [("x", "y")] } :=
  c5_requeue_on_failure "a" "b" ["c"] [("x", "y")] (by decide) (by decide)

theorem runAudio_nil (T : List Nat → List PyStr) (st : AudioState) :
    runAudio T st [] = (st, []) := rfl

theorem runAudio_cons (T : List Nat → List PyStr) (st : AudioState) (c : List Nat)
    (cs : List (List Nat)) :
    runAudio T st (c :: cs) =
      ((runAudio T (process_audio_chunk_with_accumulation T st c).1 cs).1,
        (process_audio_chunk_with_accumulation T st c).2 ++
          (runAudio T (process_audio_chunk_with_accumulation T st c).1 cs).2) := rfl

/-- Counterexample to C7 as stated: the transcriber recognizes the segment
"a␣␣b" (legal output, doubled internal space) on a threshold-crossing chunk;
the accumulated transcript holds exactly that segment, but the final answer
built by `save_match_answers` is "a␣b" — its `" ".join(split())`
re-normalization collapses the internal run — so the final answer differs from
the space-joined concatenation of the recognized segments. -/
theorem c7_counterexample_internal_double_space :
    final_answer (runAudio doubleSpaceTranscriber initAudioState
        [List.replicate 128000 0]).1.answers = ['a', ' ', 'b'] ∧
    pyJoinSpace (recognizedSegs (runAudio doubleSpaceTranscriber initAudioState
        [List.replicate 128000 0]).2) = ['a', ' ', ' ', 'b'] ∧
    final_answer (runAudio doubleSpaceTranscriber initAudioState
        [List.replicate 128000 0]).1.answers ≠
      pyJoinSpace (recognizedSegs (runAudio doubleSpaceTranscriber initAudioState
        [List.replicate 128000 0]).2) := by
  have hth : CHUNK_DURATION * AUDIO_RATE ≤
      total_samples (initAudioState.buffer ++ [List.replicate 128000 0]) := by
    show CHUNK_DURATION * AUDIO_RATE ≤ total_samples ([] ++ [List.replicate 128000 0])
    unfold total_samples
    rw [List.nil_append, List.map_cons, List.map_nil, List.length_replicate,
      List.sum_cons, List.sum_nil]
    decide
  have hne : pyStrip (buildTranscription (doubleSpaceTranscriber
      ((initAudioState.buffer ++ [List.replicate 128000 0]).flatten))) ≠ [] := by
    decide
  rw [runAudio_cons, runAudio_nil, process_step_at_cons doubleSpaceTranscriber
    initAudioState (List.replicate 128000 0) hth hne]
  refine ⟨by decide, by decide, by decide⟩

/-- C7 amended: transcript accumulation round-trip, for a transcriber whose
recognized segments have single internal spaces once stripped (edge whitespace
on raw segments, as Whisper emits, is fine — the pipeline strips it; what must
be absent is an internal whitespace run, which the counterexample shows breaks
the equality).  (i) audio below the chunk threshold only grows the buffer: no
transcription, no broadcast, no transcript growth; (ii) at the threshold, when
every recognized segment is empty, no broadcast is emitted and the transcript
is unchanged; (iii) at the threshold with non-empty recognized text, one
`transcription` broadcast is emitted and the same text is appended to the
player's accumulator; (iv) the final answer string built at grading time equals
the space-joined concatenation of the recognized segments in arrival order. -/
theorem c7_transcript_roundtrip_amended (T : List Nat → List PyStr) (st : AudioState)
    (chunk : List Nat) (chunks : List (List Nat)) (hT : goodTranscriber T) :
    (total_samples (st.buffer ++ [chunk]) < CHUNK_DURATION * AUDIO_RATE →
      process_audio_chunk_with_accumulation T st chunk =
        ({ st with buffer := st.buffer ++ [chunk] }, [])) ∧
    (CHUNK_DURATION * AUDIO_RATE ≤ total_samples (st.buffer ++ [chunk]) →
      recognizedSegs (T (st.buffer ++ [chunk]).flatten) = [] →
      (process_audio_chunk_with_accumulation T st chunk).1.answers = st.answers ∧
      (process_audio_chunk_with_accumulation T st chunk).1.transcriptionBroadcasts =
        st.transcriptionBroadcasts) ∧
    (CHUNK_DURATION * AUDIO_RATE ≤ total_samples (st.buffer ++ [chunk]) →
      recognizedSegs (T (st.buffer ++ [chunk]).flatten) ≠ [] →
      (process_audio_chunk_with_accumulation T st chunk).1.answers =
        st.answers ++ [pyJoinSpace (recognizedSegs (T (st.buffer ++ [chunk]).flatten))] ∧
      (process_audio_chunk_with_accumulation T st chunk).1.transcriptionBroadcasts =
        st.transcriptionBroadcasts ++
          [pyJoinSpace (recognizedSegs (T (st.buffer ++ [chunk]).flatten))]) ∧
    final_answer (runAudio T initAudioState chunks).1.answers =
      pyJoinSpace (recognizedSegs (runAudio T initAudioState chunks).2) := by
  refine ⟨?_, ?_, ?_, ?_⟩
  · intro h
    exact process_step_below T st chunk (by omega)
  · intro hth hrec
    obtain ⟨hentry, _⟩ := entry_of_chunk (T (st.buffer ++ [chunk]).flatten)
    have hnil : pyStrip (buildTranscription (T (st.buffer ++ [chunk]).flatten)) = [] := by
      rw [hentry, hrec]
      rfl
    rw [process_step_at_nil T st chunk hth hnil]
    exact ⟨rfl, rfl⟩
  · intro hth hrec
    obtain ⟨hentry, hprops⟩ := entry_of_chunk (T (st.buffer ++ [chunk]).flatten)
    have hne : pyStrip (buildTranscription (T (st.buffer ++ [chunk]).flatten)) ≠ [] := by
      rw [hentry]
      exact joinSpace_ne_nil _ hrec (fun s hs => (hprops s hs).1)
    rw [process_step_at_cons T st chunk hth hne]
    rw [hentry]
    exact ⟨rfl, rfl⟩
  · obtain ⟨groups, hg1, hg2, hg3⟩ := runAudio_rel T hT chunks initAudioState
    rw [hg1, hg2]
    show final_answer ([] ++ groups.map pyJoinSpace) = _
    rw [List.nil_append]
    unfold final_answer
    rw [split_joinSpace (groups.map pyJoinSpace), List.map_map]
    have hcongr : groups.map (pySplit ∘ pyJoinSpace) =
        groups.map (fun g => (g.map pySplit).flatten) :=
      List.map_congr_left (fun g _ => split_joinSpace g)
    have hflat : (groups.map (fun g => (g.map pySplit).flatten)).flatten =
        ((groups.flatten).map pySplit).flatten := by
      rw [List.map_flatten, List.flatten_flatten, List.map_map]
      rfl
    rw [hcongr, hflat]
    apply joinSpace_flatten_splits
    intro s hs
    obtain ⟨g, hgmem, hsmem⟩ := List.mem_flatten.mp hs
    obtain ⟨_, hprops⟩ := hg3 g hgmem
    obtain ⟨hs0, _, _, hs3⟩ := hprops s hsmem
    refine ⟨?_, hs3⟩
    intro hsp
    rw [hsp] at hs3
    exact hs0 hs3.symm

/-- Witness for the amended C7: a transcriber emitting a leading-space segment
(as Whisper does) — allowed by the hypothesis — and a short chunk below the
threshold. -/
theorem c7_transcript_roundtrip_amended_witness :
    goodTranscriber (fun _ => [[' ', 'h', 'i']]) ∧
    process_audio_chunk_with_accumulation (fun _ => [[' ', 'h', 'i']]) initAudioState
        [0, 0, 0, 0] =
      ({ initAudioState with buffer := [[0, 0, 0, 0]] }, []) ∧
    final_answer
        (runAudio (fun _ => [[' ', 'h', 'i']]) initAudioState [[0, 0, 0, 0]]).1.answers =
      pyJoinSpace (recognizedSegs
        (runAudio (fun _ => [[' ', 'h', 'i']]) initAudioState [[0, 0, 0, 0]]).2) := by
  have hT : goodTranscriber (fun _ => [[' ', 'h', 'i']]) := by
    intro b s hs
    simp only [List.mem_singleton] at hs
    subst hs
    decide
  refine ⟨hT, ?_, ?_⟩
  · exact (c7_transcript_roundtrip_amended (fun _ => [[' ', 'h', 'i']]) initAudioState
      [0, 0, 0, 0] [[0, 0, 0, 0]] hT).1 (by decide)
  · exact (c7_transcript_roundtrip_amended (fun _ => [[' ', 'h', 'i']]) initAudioState
      [0, 0, 0, 0] [[0, 0, 0, 0]] hT).2.2.2

/-- C6: `verify_player_access(match_id, uid)` returns true iff the room exists
and `uid` equals `player1_uid` or `player2_uid`; it coincides with the spec's
`VerifyAccess` on every input (the record's status is never consulted), and is
false when the room does not exist. -/
theorem c6_verify_access (room : Option RoomRec) (uid : String) :
    verify_player_access room uid = verifyAccessSpec room uid ∧
    (verify_player_access room uid = true ↔
      ∃ r, room = some r ∧ (uid = r.player1_uid ∨ uid = r.player2_uid)) := by
  cases room with
  | none => simp [verify_player_access, verifyAccessSpec]
  | some r => simp [verify_player_access, verifyAccessSpec]

/-- C1 (code bug evidence): the `grading_completed` guard does protect the
schedules it was written for — pure expiry, cancellation during a countdown
sleep, cancellation after grading (first three conjuncts: exactly one
`save_match_answers` invocation) — but when the `CancelledError` is delivered
at an await inside the expiry path's broadcast/grading (here: after the
`match_ending` broadcast and the `save_match_answers` call began grading
player 1, schedule `duringExpiry 3`), the flag is still `False` and the
cancellation handler invokes `save_match_answers` a second time:
`countSaves = 2`, and `Grader.Grade` runs twice for player 1 because the
interrupted first invocation never reached its `player_answers` cleanup. -/
theorem c1_cancel_during_grading_double_invocation :
    countSaves (start_match_timer_with_grading none (some roomTimerDemo)
      answersTimerDemo) = 1 ∧
    countSaves (start_match_timer_with_grading (some (CancelPt.loopSleep 3))
      (some roomTimerDemo) answersTimerDemo) = 1 ∧
    countSaves (start_match_timer_with_grading (some CancelPt.afterGrading)
      (some roomTimerDemo) answersTimerDemo) = 1 ∧
    countSaves (start_match_timer_with_grading (some (CancelPt.duringExpiry 3))
      (some roomTimerDemo) answersTimerDemo) = 2 ∧
    countGrades "p1" (start_match_timer_with_grading (some (CancelPt.duringExpiry 3))
      (some roomTimerDemo) answersTimerDemo) = 2 := by
  decide

/-- C9 (code bug evidence): the source initialises the countdown from
`MATCH_DURATION_SECONDS = 20`, not 420 — its own comment says "7 minutes
(420 seconds)" and the repository's unit test asserts 420.  Evaluating the
timer at the failing input (any room that turned Active): its first action
persists `time_remaining = 20`; the rest of the claimed behaviour (countdown to
zero, Completed status update last, exactly one `match_graded` broadcast) does
hold on the expiry path. -/
theorem c9_match_duration_is_20_not_420 :
    MATCH_DURATION_SECONDS = 20 ∧
    MATCH_DURATION_SECONDS ≠ 420 ∧
    (start_match_timer_with_grading none (some roomTimerDemo) answersTimerDemo).take 2 =
      [TEvent.tick (TickEv.setTimeRemaining 20), TEvent.tick (TickEv.timeUpdate 20)] ∧
    countGradedBroadcasts
      (start_match_timer_with_grading none (some roomTimerDemo) answersTimerDemo) = 1 ∧
    (start_match_timer_with_grading none (some roomTimerDemo) answersTimerDemo).getLast? =
      some TEvent.statusCompleted := by
  decide

/-- C2 (code bug evidence): on a room already Active with both ready flags true
and its timer (task 0) live and registered, a second `set_player_ready` call for
an already-ready player re-selects a question (the stored question text
changes), re-runs the Active transition (`started_at` is overwritten), and
creates and registers a second timer task without cancelling the first: two
live timer tasks exist and the registry now points at the new one, the old task
running unregistered. -/
theorem c2_second_ready_starts_second_timer :
    stActiveBothReady.liveTimers = 1 ∧
    stActiveBothReady.registeredTimer = some 0 ∧
    (set_player_ready stActiveBothReady qNew 9 "p1").1.liveTimers = 2 ∧
    (set_player_ready stActiveBothReady qNew 9 "p1").1.registeredTimer = some 1 ∧
    (set_player_ready stActiveBothReady qNew 9 "p1").1.room.map
      (fun r => r.question_text) = some (some "new?") ∧
    (set_player_ready stActiveBothReady qNew 9 "p1").1.room.map
      (fun r => r.started_at) = some (some 9) ∧
    (set_player_ready stActiveBothReady qNew 9 "p1").2.both_ready = true := by
  decide

/-- C3 (code bug evidence): on a Completed room whose ready flags are still both
true (they are never cleared), `set_player_ready` for either player — e.g. a
reconnecting websocket's auto-ready — moves the status backward from Completed
to Active. -/
theorem c3_completed_room_reactivated :
    stCompletedBothReady.room.map (fun r => r.status) = some RoomStatus.completed ∧
    (set_player_ready stCompletedBothReady qNew 9 "p1").1.room.map
      (fun r => r.status) = some RoomStatus.active := by
  decide

/-- Counterexample to C8 as stated: on a room whose two ready flags are already
both true, a uid matching neither player ("mallory", rejected by
`verify_player_access`) does not leave the record unchanged — the call
re-selects a question, rewrites status/started_at and starts another timer. -/
theorem c8_counterexample_foreign_uid_mutates :
    verify_player_access stActiveBothReady.room "mallory" = false ∧
    (set_player_ready stActiveBothReady qNew 9 "mallory").1 ≠ stActiveBothReady ∧
    (set_player_ready stActiveBothReady qNew 9 "mallory").1.liveTimers = 2 ∧
    (set_player_ready stActiveBothReady qNew 9 "mallory").1.room.map
      (fun r => r.question_text) = some (some "new?") := by
  decide

/-- C8 (amended): for every room whose ready flags are not already both true,
`set_player_ready` with a uid matching neither player leaves the persisted
room record entirely unchanged, starts no timer, and returns
`{"both_ready": False, "question": None}` without error. -/
theorem c8_foreign_uid_noop (st : SysState) (r : RoomRec) (q : Question) (now : Nat)
    (uid : String) (hr : st.room = some r) (h1 : uid ≠ r.player1_uid)
    (h2 : uid ≠ r.player2_uid)
    (hnb : ¬(r.player1_ready = true ∧ r.player2_ready = true)) :
    set_player_ready st q now uid = (st, { both_ready := false, question := none }) := by
  obtain ⟨room0, arm, lt, rt, nt⟩ := st
  change room0 = some r at hr
  subst hr
  have hcond : ¬(r.player1_ready && r.player2_ready) = true := by
    rw [Bool.and_eq_true]
    exact hnb
  simp [set_player_ready, h1, h2, hcond]

/-- Witness for C8's amended statement: fresh waiting room, foreign uid. -/
theorem c8_foreign_uid_noop_witness :
    set_player_ready stWaitingDemo qNew 5 "mallory" =
      (stWaitingDemo, { both_ready := false, question := none }) :=
  c8_foreign_uid_noop stWaitingDemo roomWaitingDemo qNew 5 "mallory" rfl
    (by decide) (by decide) (by decide)

theorem set_player_ready_second_joins (st : SysState) (r : RoomRec) (q : Question)
    (now : Nat) (uid : String) (hroom : st.room = some r)
    (hp1 : r.player1_ready = true) (huid : uid = r.player2_uid)
    (hne : uid ≠ r.player1_uid) :
    (set_player_ready st q now uid).2 = { both_ready := true, question := some q } ∧
    (set_player_ready st q now uid).1.room.map (fun rr => rr.status) =
      some RoomStatus.active ∧
    (set_player_ready st q now uid).1.liveTimers = st.liveTimers + 1 := by
  subst huid
  obtain ⟨room0, arm, lt, rt, nt⟩ := st
  change room0 = some r at hroom
  subst hroom
  simp [set_player_ready, update_room_status, hne, hp1]

theorem connected_message_is_ready (b : Bool) (rq : Option Question)
    (room : Option RoomRec) : (connected_message b rq room).is_ready = true := by
  cases b with
  | true => rfl
  | false =>
    cases room with
    | none => rfl
    | some r =>
      unfold connected_message
      by_cases h : r.question_text.isSome = true
      · simp [h]
      · simp [h]

/-- C10: every authenticated, access-verified player connecting to the room
WebSocket is auto-readied — the handler invokes `set_player_ready` for that
player before entering the receive loop (the pre-loop trace contains the call
and processes no client message), the `connected` message reports
`is_ready = true`, and the handler's state is exactly the auto-ready's result;
consequently (second conjunct) when the connecting player is the second
participant (the other's flag already set), the room becomes Active and a
timer task is started without any `ready` control message or ready HTTP
call. -/
theorem c10_websocket_auto_ready (resolve : String → Option String) (st : SysState)
    (q : Question) (now : Nat) (tk uid : String)
    (hres : resolve tk = some uid)
    (hacc : verify_player_access st.room uid = true) :
    (∃ pre m,
      (room_websocket (some tk) resolve st q now).2 = pre ++ [WsEvent.enterReceiveLoop] ∧
      WsEvent.callSetPlayerReady uid ∈ pre ∧
      WsEvent.sendConnected m ∈ pre ∧
      m.is_ready = true ∧
      WsEvent.clientMessage ∉ (room_websocket (some tk) resolve st q now).2 ∧
      (room_websocket (some tk) resolve st q now).1 = (set_player_ready st q now uid).1) ∧
    (∀ r, st.room = some r → r.player1_ready = true → uid = r.player2_uid →
      uid ≠ r.player1_uid →
      (room_websocket (some tk) resolve st q now).1.room.map (fun rr => rr.status) =
        some RoomStatus.active ∧
      (room_websocket (some tk) resolve st q now).1.liveTimers = st.liveTimers + 1) := by
  have hws : room_websocket (some tk) resolve st q now =
      ((set_player_ready st q now uid).1,
        [WsEvent.registerConn uid, WsEvent.callSetPlayerReady uid,
         WsEvent.sendPlayerJoined uid,
         WsEvent.sendConnected
           (connected_message
             ((set_player_ready st q now uid).2.both_ready &&
               (set_player_ready st q now uid).2.question.isSome)
             (set_player_ready st q now uid).2.question
             (set_player_ready st q now uid).1.room)] ++
        (if (set_player_ready st q now uid).2.both_ready &&
            (set_player_ready st q now uid).2.question.isSome then
          [WsEvent.sendMatchStart uid]
        else []) ++
        [WsEvent.enterReceiveLoop]) := by
    have hsession : room_websocket (some tk) resolve st q now =
        room_websocket_session uid st q now := by
      show (match resolve tk with
        | none => (st, [WsEvent.sendError "Invalid session", WsEvent.closeConn 1008])
        | some uid => room_websocket_session uid st q now) =
        room_websocket_session uid st q now
      rw [hres]
    rw [hsession]
    unfold room_websocket_session
    rw [if_pos hacc]
  constructor
  · refine ⟨[WsEvent.registerConn uid, WsEvent.callSetPlayerReady uid,
             WsEvent.sendPlayerJoined uid,
             WsEvent.sendConnected
               (connected_message
                 ((set_player_ready st q now uid).2.both_ready &&
                   (set_player_ready st q now uid).2.question.isSome)
                 (set_player_ready st q now uid).2.question
                 (set_player_ready st q now uid).1.room)] ++
            (if (set_player_ready st q now uid).2.both_ready &&
                (set_player_ready st q now uid).2.question.isSome then
              [WsEvent.sendMatchStart uid]
            else []),
           connected_message
             ((set_player_ready st q now uid).2.both_ready &&
               (set_player_ready st q now uid).2.question.isSome)
             (set_player_ready st q now uid).2.question
             (set_player_ready st q now uid).1.room,
           ?_, ?_, ?_, connected_message_is_ready _ _ _, ?_, ?_⟩
    · rw [hws, List.append_assoc]
    · simp
    · simp
    · rw [hws]
      by_cases hb : ((set_player_ready st q now uid).2.both_ready &&
          (set_player_ready st q now uid).2.question.isSome) = true
      · simp [hb]
      · simp [hb]
    · rw [hws]
  · intro r hroom hp1 huid hne
    obtain ⟨h2res, h2status, h2live⟩ :=
      set_player_ready_second_joins st r q now uid hroom hp1 huid hne
    rw [hws]
    exact ⟨h2status, h2live⟩

/-- Witness for C10: player 2 connects to a waiting room where player 1 is
already ready; the universal pre-loop guarantees plus the activation
consequence, at those concrete inputs. -/
theorem c10_websocket_auto_ready_witness :
    (∃ pre m,
      (room_websocket (some "tok") (fun _ => some "p2") stP1Ready qNew 4).2 =
        pre ++ [WsEvent.enterReceiveLoop] ∧
      WsEvent.callSetPlayerReady "p2" ∈ pre ∧
      WsEvent.sendConnected m ∈ pre ∧
      m.is_ready = true ∧
      WsEvent.clientMessage ∉
        (room_websocket (some "tok") (fun _ => some "p2") stP1Ready qNew 4).2 ∧
      (room_websocket (some "tok") (fun _ => some "p2") stP1Ready qNew 4).1 =
        (set_player_ready stP1Ready qNew 4 "p2").1) ∧
    (room_websocket (some "tok") (fun _ => some "p2") stP1Ready qNew 4).1.room.map
      (fun rr => rr.status) = some RoomStatus.active ∧
    (room_websocket (some "tok") (fun _ => some "p2") stP1Ready qNew 4).1.liveTimers =
      stP1Ready.liveTimers + 1 :=
  ⟨(c10_websocket_auto_ready (fun _ => some "p2") stP1Ready qNew 4 "tok" "p2" rfl
      (by decide)).1,
   (c10_websocket_auto_ready (fun _ => some "p2") stP1Ready qNew 4 "tok" "p2" rfl
      (by decide)).2 roomP1Ready rfl rfl rfl (by decide)⟩

end LadderUp
